import Mathlib

/-!
Shallow embedding of `src/system_packages.py` (package inventory pipeline):
Python string primitives, the `PackageManager` class family (collector
registry, reconciler `sum_pkgs`, classifier `struct_pkgs`, parsers), the
three source collectors (`LogsPackages`, `MarkedPackages`, `SnapPackages`)
and the persistence format of `save_data`, together with theorems settling
the specification claims.
-/

namespace SystemPackages

/-- Python whitespace predicate used by `str.strip()`:
space, tab, newline, carriage return, vertical tab, form feed. -/
def pyIsSpace (c : Char) : Bool :=
  c = ' ' || c = '\t' || c = '\n' || c = '\r' || c = Char.ofNat 11 || c = Char.ofNat 12

/-- Fuel-driven scanner for Python `str.replace(old, new)` over character
lists: replaces non-overlapping occurrences of `old` left to right.
Only used with non-empty `old`; fuel `s.length` always suffices. -/
def replaceFuel (old new : List Char) : Nat → List Char → List Char
  | 0, s => s
  | _ + 1, [] => []
  | fuel + 1, c :: rest =>
    if old.isPrefixOf (c :: rest) then
      new ++ replaceFuel old new fuel (List.drop (old.length - 1) rest)
    else
      c :: replaceFuel old new fuel rest

/-- Python `s.replace(old, new)` (for non-empty `old`). -/
def pyReplace (s old new : String) : String :=
  ⟨replaceFuel old.data new.data s.data.length s.data⟩

/-- Fuel-driven scanner for Python `str.split(sep)` over character lists:
cuts at each non-overlapping occurrence of `sep`, left to right, with `acc`
holding the reversed chars of the current field. Fuel `s.length` suffices. -/
def splitFuel (sep : List Char) : Nat → List Char → List Char → List (List Char)
  | 0, acc, s => [acc.reverse ++ s]
  | _ + 1, acc, [] => [acc.reverse]
  | fuel + 1, acc, c :: rest =>
    if sep.isPrefixOf (c :: rest) then
      acc.reverse :: splitFuel sep fuel [] (List.drop (sep.length - 1) rest)
    else
      splitFuel sep fuel (c :: acc) rest

/-- Python `s.split(sep)` (for non-empty `sep`); `"".split(sep) = [""]`. -/
def pySplit (s sep : String) : List String :=
  (splitFuel sep.data s.data.length [] s.data).map (fun l => String.mk l)

/-- Python `s.strip()`: drop leading and trailing whitespace. -/
def pyStrip (s : String) : String :=
  ⟨((s.data.dropWhile pyIsSpace).reverse.dropWhile pyIsSpace).reverse⟩

/-- Substring test on character lists (Python `sub in s` for strings). -/
def containsSub (sub : List Char) : List Char → Bool
  | [] => sub.isEmpty
  | c :: rest => sub.isPrefixOf (c :: rest) || containsSub sub rest

/-- Python substring containment `sub in s`. -/
def pyIn (sub s : String) : Bool :=
  containsSub sub.data s.data

/-- The three concrete subclasses of `PackageManager`; stands for the
runtime class of a registry entry (the target of `isinstance` checks). -/
inductive PkgKind
  | marked
  | logs
  | snap
deriving DecidableEq, Repr

instance : BEq PkgKind := instBEqOfDecidableEq

/-- One collector instance after its `main()` has run: its class (`kind`)
and the `pkgs_names` / `pkgs_dpnds` attributes it stored. -/
structure Child where
  kind : PkgKind
  pkgs_names : Finset String
  pkgs_dpnds : Finset String
deriving DecidableEq

/-- `PackageManager._separate_all_info`: split a whole-output string into
per-package blocks on the double newline. -/
def separate_all_info (info : String) : List String :=
  pySplit info "\n\n"

/-- `PackageManager._separate_pkg_info`: split a block into lines. -/
def separate_pkg_info (info : String) : List String :=
  pySplit info "\n"

/-- `PackageManager._separate_structured_info`: first line containing the
name trigger with every occurrence of the literal `"Package: "` removed
(empty string when no line matches), and likewise for the depends trigger
with the literal `"Depends: "`. -/
def separate_structured_info (info : List String) (name_trigger depends_trigger : String) :
    String × String :=
  (match info.filter (fun l => pyIn name_trigger l) with
   | [] => ""
   | l :: _ => pyReplace l "Package: " "",
   match info.filter (fun l => pyIn depends_trigger l) with
   | [] => ""
   | l :: _ => pyReplace l "Depends: " "")

/-- `PackageManager._parse_dpnds`: remove `"Pre-"`, remove `"|"`, strip,
split on `", "`, and keep each entry's text before the first space. -/
def parse_dpnds (pkg_dpnd : String) : List String :=
  ((pySplit (pyStrip (pyReplace (pyReplace pkg_dpnd "Pre-" "") "|" "")) ", ").map
    (fun x => (pySplit x " ").headD ""))

/-- The shared accumulation step of `LogsPackages.main` and
`MarkedPackages.main`: split one block into lines, extract name and raw
depends, append the name when non-empty, and extend the dependency list
with the parsed depends when non-empty. -/
def collect_step (acc : List String × List String) (info : String) :
    List String × List String :=
  let lines := separate_pkg_info info
  let nd := separate_structured_info lines "Package: " "Depends: "
  (if nd.1.length > 0 then acc.1 ++ [nd.1] else acc.1,
   if nd.2.length > 0 then acc.2 ++ parse_dpnds nd.2 else acc.2)

/-- `LogsPackages.main` as a function of the raw command output: blocks are
processed by `collect_step`, both lists are deduplicated into sets, and the
dependency set is subtracted from the name set before storage. -/
def logsMain (raw : String) : Child :=
  let acc := (separate_all_info raw).foldl collect_step ([], [])
  let pkgs_names := acc.1.toFinset
  let pkgs_dpnds := acc.2.toFinset
  ⟨.logs, pkgs_names \ pkgs_dpnds, pkgs_dpnds⟩

/-- `MarkedPackages.main` as a function of the raw `apt-mark showmanual`
output and an oracle `infoOf` giving the `apt show` output per listed name
(one external call per name in the code). -/
def markedMain (infoOf : String → String) (raw : String) : Child :=
  let acc := ((separate_pkg_info raw).map infoOf).foldl collect_step ([], [])
  let pkgs_names := acc.1.toFinset
  let pkgs_dpnds := acc.2.toFinset
  ⟨.marked, pkgs_names \ pkgs_dpnds, pkgs_dpnds⟩

/-- `SnapPackages.IGNORED_PKGS`. -/
def IGNORED_PKGS : List String :=
  ["canonical", "core", "chromium-ffmpeg", "qt513", "snapd", "ufw", "gnome", "kde"]

/-- `SnapPackages.main`'s inner `rm_pkg`: keep a name iff it contains no
ignore-list entry as a substring. -/
def rm_pkg (pkgs : String) : Bool :=
  !(IGNORED_PKGS.any (fun ignored => pyIn ignored pkgs))

/-- `SnapPackages.main` as a function of the raw `snap list` output: drop
the header line, split each line on the space character keeping non-empty
tokens, take the first token of each line that has one, filter through
`rm_pkg`, fix the dependency set to `{"snap-store"}` and subtract it. -/
def snapMain (raw : String) : Child :=
  let rows := ((separate_pkg_info raw).drop 1).map
    (fun pkg => (pySplit pkg " ").filter (fun elem => elem.length > 0))
  let pkgs_names := (rows.filterMap List.head?).filter rm_pkg
  let pkgs_dpnds : Finset String := {"snap-store"}
  ⟨.snap, pkgs_names.toFinset \ pkgs_dpnds, pkgs_dpnds⟩

/-- `PackageManager.sum_pkgs`: scan the registry (`_childs`, in creation
order) keeping the last `MarkedPackages` and the last `LogsPackages`
instance; `none` models the fatal `UnboundLocalError` raised when either is
absent. Otherwise `names = marked.names - logs.names`,
`dpnds = marked.dpnds - logs.dpnds`, then `names = names - dpnds`. -/
def sum_pkgs (childs : List Child) : Option (Finset String × Finset String) :=
  match (childs.filter (fun c => c.kind == .marked)).getLast?,
        (childs.filter (fun c => c.kind == .logs)).getLast? with
  | some mark, some logs =>
    let pkgs_names := mark.pkgs_names \ logs.pkgs_names
    let pkgs_dpnds := mark.pkgs_dpnds \ logs.pkgs_dpnds
    some (pkgs_names \ pkgs_dpnds, pkgs_dpnds)
  | _, _ => none

/-- The dictionary returned by `PackageManager.struct_pkgs`: the three
classification groups, plus `snap_pkgs` when the key was inserted. -/
structure GroupMap where
  gen_pkgs : Finset String
  py_pkgs : Finset String
  lib_pkgs : Finset String
  snap_pkgs : Option (Finset String)
deriving DecidableEq

/-- `PackageManager.struct_pkgs`: names containing `"pyth"` go to
`py_pkgs`; of the rest, names containing `"lib"` go to `lib_pkgs`; the
remainder is `gen_pkgs`. The loop over the registry rebinds `snap_pkgs`
for every `SnapPackages` child, so the last one wins (`none` when there is
no such child, modelling the absent dictionary key). -/
def struct_pkgs (childs : List Child) (pkgs_names : Finset String) : GroupMap :=
  let py_pkgs := pkgs_names.filter (fun pkg => pyIn "pyth" pkg)
  let lib_all := pkgs_names.filter (fun pkg => pyIn "lib" pkg)
  let lib_pkgs := lib_all \ py_pkgs
  let gen := (pkgs_names \ py_pkgs) \ lib_pkgs
  let snap := childs.foldl
    (fun acc c => if c.kind == .snap then some c.pkgs_names else acc) none
  ⟨gen, py_pkgs, lib_pkgs, snap⟩

/-- Path of the file `PackageManager.save_data` writes for a group key. -/
def save_path (folder key : String) : String :=
  folder ++ "/" ++ key ++ ".txt"

/-- Content `PackageManager.save_data` writes for one group: the loop
writes each value in iteration order followed by a newline. -/
def file_content : List String → String
  | [] => ""
  | v :: rest => v ++ "\n" ++ file_content rest

/-- Cut a character list at each newline; the final (possibly empty)
segment is kept, so a text ending in a newline yields a trailing `[]`. -/
def splitNl : List Char → List (List Char)
  | [] => [[]]
  | c :: rest =>
    if c = '\n' then [] :: splitNl rest
    else
      match splitNl rest with
      | [] => [[c]]
      | l :: ls => (c :: l) :: ls

/-- Modelled from the spec: reading the written file back line-by-line
(the repository never reads its backups; the spec's round-trip property is
about a conventional line iteration with the trailing newline stripped). -/
def read_lines (s : String) : List String :=
  ((splitNl s.data).dropLast).map (fun l => String.mk l)

/-- The dependency parser as the claim describes it, with "the text before
the first space" rendered directly as a `takeWhile`; to be compared with
`parse_dpnds` (which indexes into a space-split instead). -/
def parse_dpnds_spec (raw : String) : Finset String :=
  (((pySplit (pyStrip (pyReplace (pyReplace raw "Pre-" "") "|" "")) ", ").map
    (fun entry => (⟨entry.data.takeWhile (fun c => c ≠ ' ')⟩ : String))).toFinset)

/-- The Snap collector's name set as the claim describes it, amended:
lines after the header are split on the single space character (the code's
`split(' ')`), not on general whitespace; the first non-empty token of each
line that has one survives `rm_pkg` and the placeholder subtraction. -/
def snap_names_amended (raw : String) : Finset String :=
  (((((pySplit raw "\n").drop 1).filterMap
      (fun line => ((pySplit line " ").filter (fun t => t.length > 0)).head?)).filter
    rm_pkg).toFinset) \ {"snap-store"}

end SystemPackages

namespace SystemPackages

theorem splitFuel_ne_nil (sep : List Char) (fuel : Nat) (acc s : List Char) :
    splitFuel sep fuel acc s ≠ [] := by
  induction fuel generalizing acc s with
  | zero => simp [splitFuel]
  | succ f ih =>
    cases s with
    | nil => simp [splitFuel]
    | cons c rest =>
      simp only [splitFuel]
      by_cases h : sep.isPrefixOf (c :: rest) <;> simp [h, ih]

theorem splitFuel_head_space (s : List Char) :
    ∀ (fuel : Nat) (acc : List Char), s.length ≤ fuel →
      (splitFuel [' '] fuel acc s).headD [] =
        acc.reverse ++ s.takeWhile (fun c => c ≠ ' ') := by
  induction s with
  | nil =>
    intro fuel acc _
    cases fuel <;> simp [splitFuel]
  | cons c rest ih =>
    intro fuel acc hf
    cases fuel with
    | zero => simp at hf
    | succ f =>
      simp only [splitFuel]
      by_cases hc : c = ' '
      · subst hc
        simp [List.isPrefixOf, List.takeWhile_cons]
      · have hpre : List.isPrefixOf [' '] (c :: rest) = false := by
          simp [List.isPrefixOf]
          exact fun h => absurd h.symm hc
        simp only [hpre, Bool.false_eq_true, if_false]
        rw [ih f (c :: acc) (Nat.le_of_succ_le_succ hf)]
        simp [List.takeWhile_cons, hc]

theorem pySplit_space_head (x : String) :
    (pySplit x " ").headD "" = ⟨x.data.takeWhile (fun c => c ≠ ' ')⟩ := by
  unfold pySplit
  cases h : splitFuel " ".data x.data.length [] x.data with
  | nil => exact absurd h (splitFuel_ne_nil _ _ _ _)
  | cons l ls =>
    have hh := splitFuel_head_space x.data x.data.length [] (Nat.le_refl _)
    rw [show " ".data = [' '] from rfl] at h
    rw [h] at hh
    simp at hh
    simp [hh]

theorem snap_loop_eq (childs : List Child) (acc : Option (Finset String)) :
    childs.foldl (fun a c => if c.kind == PkgKind.snap then some c.pkgs_names else a) acc =
      ((childs.filter (fun c => c.kind == PkgKind.snap)).getLast?).elim acc
        (fun c => some c.pkgs_names) := by
  induction childs using List.reverseRecOn with
  | nil => rfl
  | append_singleton l a ih =>
    rw [List.filter_append]
    by_cases ha : a.kind = PkgKind.snap
    · have hfa : List.filter (fun c => c.kind == PkgKind.snap) [a] = [a] := by simp [ha]
      simp only [List.foldl_append, List.foldl_cons, List.foldl_nil]
      rw [hfa, List.getLast?_concat]
      simp [ha]
    · have hfa : List.filter (fun c => c.kind == PkgKind.snap) [a] = [] := by simp [ha]
      simp only [List.foldl_append, List.foldl_cons, List.foldl_nil]
      rw [hfa, List.append_nil]
      have hbeq : (a.kind == PkgKind.snap) = false := by simp [ha]
      rw [hbeq]
      simpa using ih

theorem splitNl_ne_nil (s : List Char) : splitNl s ≠ [] := by
  induction s with
  | nil => simp [splitNl]
  | cons c rest ih =>
    simp only [splitNl]
    by_cases h : c = '\n'
    · simp [h]
    · cases hr : splitNl rest with
      | nil => exact absurd hr ih
      | cons l ls => simp [h, hr]

theorem splitNl_append (v s : List Char) (hv : '\n' ∉ v) :
    splitNl (v ++ '\n' :: s) = v :: splitNl s := by
  induction v with
  | nil => simp [splitNl]
  | cons c cv ih =>
    have hc : c ≠ '\n' := fun h => hv (h ▸ List.mem_cons_self _ _)
    have hv' : '\n' ∉ cv := fun h => hv (List.mem_cons_of_mem _ h)
    have ih' := ih hv'
    simp only [List.cons_append, splitNl, List.append_eq, ih', hc, if_false]

theorem read_lines_file_content (value : List String)
    (hv : ∀ v ∈ value, '\n' ∉ v.data) :
    read_lines (file_content value) = value := by
  induction value with
  | nil => rfl
  | cons v rest ih =>
    have hdata : (file_content (v :: rest)).data = v.data ++ '\n' :: (file_content rest).data := by
      show (v ++ "\n" ++ file_content rest).data = _
      simp
    unfold read_lines
    rw [hdata, splitNl_append v.data _ (hv v (List.mem_cons_self _ _))]
    rw [List.dropLast_cons_of_ne_nil (splitNl_ne_nil _)]
    have ihr := ih (fun w hw => hv w (List.mem_cons_of_mem _ hw))
    unfold read_lines at ihr
    simp only [List.map_cons, ihr]

/-- C1: reconciliation of a Marked-kind and a Logs-kind result returns
`names = marked.names - logs.names` and
`dependencies = marked.dependencies - logs.dependencies`, then subtracts
the computed dependencies from the names; on the spec's scenario
(`logs.names = {bash, coreutils}`, `marked.names = {bash, vim, python3-foo}`,
`marked.dependencies = {coreutils}`, `logs.dependencies = {}`) the final
names are exactly `{vim, python3-foo}`. -/
theorem C1_reconcile (mn md ln ld : Finset String) :
    sum_pkgs [⟨.marked, mn, md⟩, ⟨.logs, ln, ld⟩] =
      some ((mn \ ln) \ (md \ ld), md \ ld) ∧
    sum_pkgs [⟨.marked, {"bash", "vim", "python3-foo"}, {"coreutils"}⟩,
        ⟨.logs, {"bash", "coreutils"}, ∅⟩] =
      some ({"vim", "python3-foo"}, {"coreutils"}) :=
  ⟨rfl, by decide⟩

/-- C2: the classifier sends names containing `"pyth"` to `py_pkgs`,
remaining names containing `"lib"` to `lib_pkgs` (first match wins), and
everything else to `gen_pkgs`; the three groups are pairwise disjoint and
their union is the input set; the spec's scenario
`{vim, python3-foo, libssl-dev}` classifies as stated. -/
theorem C2_classifier (childs : List Child) (ns : Finset String) :
    (∀ p, p ∈ (struct_pkgs childs ns).py_pkgs ↔ p ∈ ns ∧ pyIn "pyth" p = true) ∧
    (∀ p, p ∈ (struct_pkgs childs ns).lib_pkgs ↔
      p ∈ ns ∧ pyIn "lib" p = true ∧ pyIn "pyth" p = false) ∧
    (∀ p, p ∈ (struct_pkgs childs ns).gen_pkgs ↔
      p ∈ ns ∧ pyIn "pyth" p = false ∧ pyIn "lib" p = false) ∧
    Disjoint (struct_pkgs childs ns).py_pkgs (struct_pkgs childs ns).lib_pkgs ∧
    Disjoint (struct_pkgs childs ns).py_pkgs (struct_pkgs childs ns).gen_pkgs ∧
    Disjoint (struct_pkgs childs ns).lib_pkgs (struct_pkgs childs ns).gen_pkgs ∧
    ((struct_pkgs childs ns).gen_pkgs ∪ (struct_pkgs childs ns).py_pkgs ∪
      (struct_pkgs childs ns).lib_pkgs = ns) ∧
    ((struct_pkgs [] {"vim", "python3-foo", "libssl-dev"}).py_pkgs = {"python3-foo"} ∧
     (struct_pkgs [] {"vim", "python3-foo", "libssl-dev"}).lib_pkgs = {"libssl-dev"} ∧
     (struct_pkgs [] {"vim", "python3-foo", "libssl-dev"}).gen_pkgs = {"vim"}) := by
  have hpy : ∀ p, p ∈ (struct_pkgs childs ns).py_pkgs ↔ p ∈ ns ∧ pyIn "pyth" p = true := by
    intro p
    simp [struct_pkgs, Finset.mem_filter]
  have hlib : ∀ p, p ∈ (struct_pkgs childs ns).lib_pkgs ↔
      p ∈ ns ∧ pyIn "lib" p = true ∧ pyIn "pyth" p = false := by
    intro p
    simp [struct_pkgs, Finset.mem_sdiff, Finset.mem_filter]
    tauto
  have hgen : ∀ p, p ∈ (struct_pkgs childs ns).gen_pkgs ↔
      p ∈ ns ∧ pyIn "pyth" p = false ∧ pyIn "lib" p = false := by
    intro p
    simp [struct_pkgs, Finset.mem_sdiff, Finset.mem_filter]
    cases h1 : pyIn "pyth" p <;> cases h2 : pyIn "lib" p <;> tauto
  refine ⟨hpy, hlib, hgen, ?_, ?_, ?_, ?_, by decide, by decide, by decide⟩
  · rw [Finset.disjoint_left]
    intro a ha hb
    rw [hpy] at ha
    rw [hlib] at hb
    rw [ha.2] at hb
    simp at hb
  · rw [Finset.disjoint_left]
    intro a ha hb
    rw [hpy] at ha
    rw [hgen] at hb
    rw [ha.2] at hb
    simp at hb
  · rw [Finset.disjoint_left]
    intro a ha hb
    rw [hlib] at ha
    rw [hgen] at hb
    rw [ha.2.1] at hb
    simp at hb
  · ext p
    simp only [Finset.mem_union, hpy, hlib, hgen]
    cases h1 : pyIn "pyth" p <;> cases h2 : pyIn "lib" p <;> simp [h1, h2]

/-- C3: every collector stores a result with
`names ∩ dependencies = ∅` (the dependency set is subtracted from the raw
name set before storage), and a reconciled inventory returned by
`sum_pkgs` satisfies the same disjointness. -/
theorem C3_disjoint :
    (∀ raw : String, (logsMain raw).pkgs_names ∩ (logsMain raw).pkgs_dpnds = ∅) ∧
    (∀ (infoOf : String → String) (raw : String),
      (markedMain infoOf raw).pkgs_names ∩ (markedMain infoOf raw).pkgs_dpnds = ∅) ∧
    (∀ raw : String, (snapMain raw).pkgs_names ∩ (snapMain raw).pkgs_dpnds = ∅) ∧
    (∀ (childs : List Child) (ns ds : Finset String),
      sum_pkgs childs = some (ns, ds) → ns ∩ ds = ∅) := by
  refine ⟨fun raw => Finset.sdiff_inter_self _ _,
    fun infoOf raw => Finset.sdiff_inter_self _ _,
    fun raw => Finset.sdiff_inter_self _ _, ?_⟩
  intro childs ns ds h
  rcases hm : (childs.filter (fun c => c.kind == PkgKind.marked)).getLast? with _ | mark
  · simp [sum_pkgs, hm] at h
  · rcases hl : (childs.filter (fun c => c.kind == PkgKind.logs)).getLast? with _ | logs
    · simp [sum_pkgs, hm, hl] at h
    · simp only [sum_pkgs, hm, hl, Option.some.injEq, Prod.mk.injEq] at h
      obtain ⟨h1, h2⟩ := h
      rw [← h1, ← h2]
      exact Finset.sdiff_inter_self _ _

theorem C3_disjoint_witness :
    ({"vim", "python3-foo"} : Finset String) ∩ {"coreutils"} = ∅ :=
  C3_disjoint.2.2.2
    [⟨.marked, {"bash", "vim", "python3-foo"}, {"coreutils"}⟩,
     ⟨.logs, {"bash", "coreutils"}, ∅⟩]
    {"vim", "python3-foo"} {"coreutils"} (by decide)

/-- C7: when the registry holds no Marked-kind or no Logs-kind instance,
`sum_pkgs` hits an unbound local and aborts (modelled as `none`) instead of
returning an inventory; with exactly one of each it returns normally. -/
theorem C7_registry_precondition :
    (∀ childs : List Child, (∀ c ∈ childs, c.kind ≠ PkgKind.marked) →
      sum_pkgs childs = none) ∧
    (∀ childs : List Child, (∀ c ∈ childs, c.kind ≠ PkgKind.logs) →
      sum_pkgs childs = none) ∧
    (∀ childs : List Child,
      (childs.filter (fun c => c.kind == PkgKind.marked)).length = 1 →
      (childs.filter (fun c => c.kind == PkgKind.logs)).length = 1 →
      (sum_pkgs childs).isSome = true) := by
  refine ⟨?_, ?_, ?_⟩
  · intro childs h
    have hf : childs.filter (fun c => c.kind == PkgKind.marked) = [] := by
      rw [List.filter_eq_nil_iff]
      intro c hc
      simpa using h c hc
    simp [sum_pkgs, hf]
  · intro childs h
    have hf : childs.filter (fun c => c.kind == PkgKind.logs) = [] := by
      rw [List.filter_eq_nil_iff]
      intro c hc
      simpa using h c hc
    simp [sum_pkgs, hf]
  · intro childs hm hl
    obtain ⟨m, hme⟩ := List.length_eq_one.mp hm
    obtain ⟨l, hle⟩ := List.length_eq_one.mp hl
    simp [sum_pkgs, hme, hle]

theorem C7_registry_precondition_witness :
    sum_pkgs [⟨PkgKind.logs, ∅, ∅⟩] = none ∧
    sum_pkgs [⟨PkgKind.marked, ∅, ∅⟩] = none ∧
    (sum_pkgs [⟨PkgKind.marked, ∅, ∅⟩, ⟨PkgKind.logs, ∅, ∅⟩]).isSome = true :=
  ⟨C7_registry_precondition.1 _ (by decide),
   C7_registry_precondition.2.1 _ (by decide),
   C7_registry_precondition.2.2 _ (by decide) (by decide)⟩

/-- C9: the Snap collector's stored dependency set is the fixed singleton
`{"snap-store"}` whatever the listing, the name `"snap-store"` passes the
ignore-list filter, and yet it can never appear in the stored names because
the placeholder set is subtracted from them. -/
theorem C9_snap_store (raw : String) :
    (snapMain raw).pkgs_dpnds = {"snap-store"} ∧
    "snap-store" ∉ (snapMain raw).pkgs_names ∧
    rm_pkg "snap-store" = true := by
  refine ⟨rfl, ?_, by decide⟩
  intro hmem
  simp [snapMain] at hmem

/-- C4: the dependency parser removes `"Pre-"`, removes `"|"`, trims
surrounding whitespace, splits on `", "`, keeps for each entry the text
before the first space, and (as a set) yields exactly that; on
`"foo (>= 1.0), bar | baz, Pre-qux"` it returns `{foo, bar, qux}`. -/
theorem C4_parse_dpnds :
    (∀ raw : String, (parse_dpnds raw).toFinset = parse_dpnds_spec raw) ∧
    (parse_dpnds "foo (>= 1.0), bar | baz, Pre-qux").toFinset = {"foo", "bar", "qux"} := by
  constructor
  · intro raw
    have hfun : (fun x : String => (pySplit x " ").headD "") =
        fun entry : String => (⟨entry.data.takeWhile (fun c => c ≠ ' ')⟩ : String) :=
      funext pySplit_space_head
    unfold parse_dpnds parse_dpnds_spec
    rw [hfun]
  · decide

/-- C5 counterexample: with a trigger other than the hardcoded literal, the
extractor does not strip the trigger prefix: on the single line
`"Name: vim"` with name trigger `"Name: "` it returns the line unchanged,
not `"vim"` as the claim requires. -/
theorem C5_counterexample :
    separate_structured_info ["Name: vim"] "Name: " "Depends: " = ("Name: vim", "") ∧
    ("Name: vim" : String) ≠ "vim" := by decide

/-- C5 amended: for every list of lines and every pair of triggers, the
extractor returns the first line containing the name trigger with all
occurrences of the literal `"Package: "` removed (not the trigger itself),
likewise the first line containing the depends trigger with `"Depends: "`
removed, and the empty string for a trigger occurring on no line; a block
yielding `("", "")` leaves the collectors' accumulators unchanged. -/
theorem C5_extract_amended (info : List String) (nt dt : String) :
    (info.filter (fun l => pyIn nt l) = [] → (separate_structured_info info nt dt).1 = "") ∧
    (∀ (l : String) (rest : List String), info.filter (fun l => pyIn nt l) = l :: rest →
      (separate_structured_info info nt dt).1 = pyReplace l "Package: " "") ∧
    (info.filter (fun l => pyIn dt l) = [] → (separate_structured_info info nt dt).2 = "") ∧
    (∀ (l : String) (rest : List String), info.filter (fun l => pyIn dt l) = l :: rest →
      (separate_structured_info info nt dt).2 = pyReplace l "Depends: " "") ∧
    (∀ (acc : List String × List String) (blk : String),
      separate_structured_info (separate_pkg_info blk) "Package: " "Depends: " = ("", "") →
      collect_step acc blk = acc) := by
  refine ⟨?_, ?_, ?_, ?_, ?_⟩
  · intro h
    simp [separate_structured_info, h]
  · intro l rest h
    simp [separate_structured_info, h]
  · intro h
    simp [separate_structured_info, h]
  · intro l rest h
    simp [separate_structured_info, h]
  · intro acc blk h
    simp [collect_step, h]

theorem C5_extract_amended_witness :
    (separate_structured_info ["plain line"] "Package: " "Depends: ").1 = "" ∧
    (separate_structured_info ["Package: vim"] "Package: " "Depends: ").1 =
      pyReplace "Package: vim" "Package: " "" ∧
    collect_step (["n"], ["d"]) "plain line" = (["n"], ["d"]) :=
  ⟨(C5_extract_amended ["plain line"] "Package: " "Depends: ").1 (by decide),
   (C5_extract_amended ["Package: vim"] "Package: " "Depends: ").2.1 "Package: vim" []
     (by decide),
   (C5_extract_amended ["plain line"] "Package: " "Depends: ").2.2.2.2 (["n"], ["d"])
     "plain line" (by decide)⟩

/-- C6 counterexample: the Snap collector splits rows on the space
character only, not on whitespace: a row whose first whitespace-separated
column is `"foo"` but contains a tab yields the name `"foo\tbar"`, so the
claim's description of the column split fails. -/
theorem C6_counterexample :
    (snapMain "Name Version\nfoo\tbar 1.0").pkgs_names = {"foo\tbar"} ∧
    ("foo\tbar" : String) ≠ "foo" := by decide

/-- C6 amended: the Snap collector skips the header line, splits each
remaining line on the single space character keeping non-empty tokens,
takes the first token of each line having one, discards names containing
an ignore-list entry as a substring, and subtracts the placeholder
dependency set from the names; the spec's scenario with rows
`core`, `some-editor`, `chromium-ffmpeg` yields `names = {some-editor}`. -/
theorem C6_snap_collector :
    (∀ raw : String, (snapMain raw).pkgs_names = snap_names_amended raw) ∧
    (snapMain "Name Version Rev\ncore 16-2 14784\nsome-editor 1.2 33\nchromium-ffmpeg 0.1 20").pkgs_names =
      {"some-editor"} := by
  constructor
  · intro raw
    have h1 : ∀ (lines : List String),
        (lines.map (fun pkg =>
          (pySplit pkg " ").filter (fun elem => elem.length > 0))).filterMap List.head? =
        lines.filterMap (fun line =>
          ((pySplit line " ").filter (fun t => t.length > 0)).head?) := by
      intro lines
      induction lines with
      | nil => rfl
      | cons x xs ih => simp only [List.map_cons, List.filterMap_cons, ih]
    simp only [snapMain, snap_names_amended, separate_pkg_info]
    rw [h1]
  · decide

/-- C8 counterexample: the persistence round-trip fails for a name that
contains a newline: writing the one-element group `{"a\nb"}` produces two
lines, and reading them back yields `{a, b}`, not the written set. -/
theorem C8_counterexample :
    (read_lines (file_content ["a\nb"])).toFinset ≠ ({"a\nb"} : Finset String) := by
  decide

/-- C8 amended: for every group key the persister writes
`<folder>/<group_key>.txt`, one package name per line each followed by a
newline, and provided no written name itself contains a newline, reading
the file back line-by-line recovers exactly the written set
(order-independent; in fact the written list itself). -/
theorem C8_round_trip (folder key : String) (value : List String)
    (hv : ∀ v ∈ value, '\n' ∉ v.data) :
    save_path folder key = folder ++ "/" ++ key ++ ".txt" ∧
    read_lines (file_content value) = value ∧
    (read_lines (file_content value)).toFinset = value.toFinset :=
  ⟨rfl, read_lines_file_content value hv,
   by rw [read_lines_file_content value hv]⟩

theorem C8_round_trip_witness :
    save_path "backlibs" "gen_pkgs" = "backlibs/gen_pkgs.txt" ∧
    read_lines (file_content ["a", "b"]) = ["a", "b"] ∧
    (read_lines (file_content ["a", "b"])).toFinset = (["a", "b"] : List String).toFinset :=
  C8_round_trip "backlibs" "gen_pkgs" ["a", "b"] (by decide)

/-- C10: when no Snap-kind instance is in the registry, the classifier's
result carries no `snap_pkgs` entry (modelled as `none`); when Snap-kind
instances exist, `snap_pkgs` is the name set of the last one in the
registry, i.e. the last-created one (`_childs` appends on creation). -/
theorem C10_snap_key (childs : List Child) (ns : Finset String) :
    (childs.filter (fun c => c.kind == PkgKind.snap) = [] →
      (struct_pkgs childs ns).snap_pkgs = none) ∧
    (∀ (pre : List Child) (c : Child),
      childs.filter (fun c => c.kind == PkgKind.snap) = pre ++ [c] →
      (struct_pkgs childs ns).snap_pkgs = some c.pkgs_names) := by
  constructor
  · intro h
    show childs.foldl _ none = none
    rw [snap_loop_eq, h]
    rfl
  · intro pre c h
    show childs.foldl _ none = some c.pkgs_names
    rw [snap_loop_eq, h, List.getLast?_concat]
    rfl

theorem C10_snap_key_witness :
    (struct_pkgs [⟨PkgKind.logs, ∅, ∅⟩] ∅).snap_pkgs = none ∧
    (struct_pkgs [⟨PkgKind.snap, {"old"}, {"snap-store"}⟩,
        ⟨PkgKind.snap, {"some-editor"}, {"snap-store"}⟩] ∅).snap_pkgs =
      some {"some-editor"} :=
  ⟨(C10_snap_key [⟨PkgKind.logs, ∅, ∅⟩] ∅).1 (by decide),
   (C10_snap_key [⟨PkgKind.snap, {"old"}, {"snap-store"}⟩,
       ⟨PkgKind.snap, {"some-editor"}, {"snap-store"}⟩] ∅).2
     [⟨PkgKind.snap, {"old"}, {"snap-store"}⟩]
     ⟨PkgKind.snap, {"some-editor"}, {"snap-store"}⟩ (by decide)⟩

end SystemPackages
